import Mathlib

/-!
Verification development for the Multi-Agent-Discussion-System backend.

The Python sources are shallowly embedded: pure string processing becomes
functions on `String`/`List Char`, JSON/YAML values become an inductive
value type, raising code returns `Except`, and the outcomes of external
network/model calls are passed in explicitly as oracle fields, so every
definition stays executable.
-/

namespace MultiAgent

/-- Python's whitespace class, as used by the regex class `\s` and by
`str.strip`: ASCII whitespace together with the Unicode whitespace
characters Python treats as whitespace. -/
def pyIsSpace (c : Char) : Bool :=
  c = ' ' || c = '\t' || c = '\n' || c = '\r' || c = '\x0b' || c = '\x0c' ||
  c = '\x1c' || c = '\x1d' || c = '\x1e' || c = '\x1f' || c = '\x85' || c = '\xa0' ||
  c = '\u1680' || ('\u2000' ≤ c && c ≤ '\u200a') || c = '\u2028' || c = '\u2029' ||
  c = '\u202f' || c = '\u205f' || c = '\u3000'

/-- The characters of the literal opening tag of the regex
`<think>.*?</think>` in `tts_service.basic_clean_text`. -/
def openPat : List Char := "<think>".data

/-- The characters of the literal closing tag of that regex. -/
def closePat : List Char := "</think>".data

/-- The fixed trailing phrase removed by `basic_clean_text`. -/
def thankPhrase : List Char := "Thank you for reading.".data

/-- Remainder of `l` just after the first (leftmost) occurrence of `pat`,
if `pat` occurs in `l` at all. -/
def afterFirst (pat : List Char) : List Char → Option (List Char)
  | [] => if pat.isPrefixOf ([] : List Char) then some [] else none
  | c :: t =>
    if pat.isPrefixOf (c :: t) then some ((c :: t).drop pat.length)
    else afterFirst pat t

/-- Substring occurrence test on character lists (Python's `in` on `str`). -/
def containsList (pat : List Char) : List Char → Bool
  | [] => pat.isPrefixOf ([] : List Char)
  | c :: t => pat.isPrefixOf (c :: t) || containsList pat t

/-- One left-to-right pass of `re.sub(r'<think>.*?</think>', '', text,
flags=re.DOTALL)`: at each position where the literal tag `<think>` matches
and a closing `</think>` occurs somewhere after it, the whole non-greedy
match is dropped and scanning resumes right after it; otherwise the scan
advances one character.  The `fuel` argument only bounds the recursion
depth so that the definition is structural: the scan consumes at least one
character of `l` per step, so any `fuel ≥ l.length` computes exactly the
substitution performed by the regex engine. -/
def removeThinkFuel : Nat → List Char → List Char
  | 0, l => l
  | _ + 1, [] => []
  | fuel + 1, c :: t =>
    if openPat.isPrefixOf (c :: t) then
      match afterFirst closePat ((c :: t).drop openPat.length) with
      | some rest => removeThinkFuel fuel rest
      | none => c :: removeThinkFuel fuel t
    else c :: removeThinkFuel fuel t

/-- Step 1 of `basic_clean_text`: remove the thinking blocks. -/
def removeThink (l : List Char) : List Char := removeThinkFuel l.length l

/-- Embeds `re.sub(r'\s+', ' ', text)`: every maximal run of whitespace becomes a
single space character. -/
def collapseWs : List Char → List Char
  | [] => []
  | [c] => [if pyIsSpace c then ' ' else c]
  | c :: d :: t =>
    if pyIsSpace c && pyIsSpace d then collapseWs (d :: t)
    else (if pyIsSpace c then ' ' else c) :: collapseWs (d :: t)

/-- Python `str.strip()`: remove leading and trailing whitespace. -/
def stripWs (l : List Char) : List Char := (l.dropWhile pyIsSpace).rdropWhile pyIsSpace

/-- The `text.endswith("Thank you for reading.")` guard followed by
`text.removesuffix("Thank you for reading.")` in `basic_clean_text`. -/
def removesuffixThank (l : List Char) : List Char :=
  if thankPhrase.isSuffixOf l then l.take (l.length - thankPhrase.length) else l

/-- Embeds `services/tts_service.basic_clean_text`: remove `<think>…</think>`
blocks, collapse whitespace and strip, drop one trailing boilerplate
phrase, and strip again. -/
def basic_clean_text (s : String) : String :=
  let noThink := removeThink s.data
  let collapsed := stripWs (collapseWs noThink)
  let dropped := removesuffixThank collapsed
  String.mk (stripWs dropped)

/-- Python `pat in s` on strings. -/
def pyContains (pat s : String) : Bool := containsList pat.data s.data

/-- Python `s.startswith(pre)`. -/
def pyStartsWith (s pre : String) : Bool := pre.data.isPrefixOf s.data

/-- Python `s.strip()` packaged on `String`. -/
def pyStripStr (s : String) : String := String.mk (stripWs s.data)

/-- Whether `l` contains a complete `<think>…</think>` block, i.e. the
scan of `removeThink` removes at least one span: the first occurrence of
the opening tag is followed, somewhere later, by the closing tag. -/
def hasThinkBlock (l : List Char) : Bool :=
  match afterFirst openPat l with
  | none => false
  | some rest => (afterFirst closePat rest).isSome

/-- Python exceptions that the embedded code can raise. -/
inductive PyError where
  | valueError (msg : String)
  | keyError (msg : String)
  | typeError (msg : String)
  | raised (msg : String)

/-- JSON/YAML values (`json.load` results and `yaml.safe_load` mappings). -/
inductive JValue where
  | null
  | bool (b : Bool)
  | num (n : Int)
  | str (s : String)
  | arr (items : List JValue)
  | obj (fields : List (String × JValue))

/-- Python `repr` of a value, as it appears inside `str` of a container.
Only the scalar cases are exercised by the claims below; the container
cases follow Python's bracketed rendering. -/
def jvalueRepr : JValue → String
  | .null => "None"
  | .bool b => if b then "True" else "False"
  | .num n => toString n
  | .str s => "'" ++ s ++ "'"
  | .arr items =>
    "[" ++ String.intercalate ", " (items.attach.map (fun x => jvalueRepr x.1)) ++ "]"
  | .obj fields =>
    "\x7b" ++
      String.intercalate ", "
        (fields.attach.map (fun kv => "'" ++ kv.1.1 ++ "': " ++ jvalueRepr kv.1.2)) ++
      "\x7d"
termination_by v => sizeOf v
decreasing_by
  · have h := List.sizeOf_lt_of_mem x.2
    simp only [JValue.arr.sizeOf_spec]
    omega
  · have h := List.sizeOf_lt_of_mem kv.2
    have h2 : sizeOf kv.1.2 < sizeOf kv.1 := by
      obtain ⟨⟨a, b⟩, hk⟩ := kv
      simp only [Prod.mk.sizeOf_spec]
      omega
    simp only [JValue.obj.sizeOf_spec]
    omega

/-- Python `str()` of a value (`f"{value}"`): a string renders as itself,
anything else as its `repr`-style rendering. -/
def jvalueStr : JValue → String
  | .str s => s
  | v => jvalueRepr v

/-- Python truthiness of a JSON/YAML value (`if item:`). -/
def pyTruthy : JValue → Bool
  | .null => false
  | .bool b => b
  | .num n => n != 0
  | .str s => s != ""
  | .arr items => !items.isEmpty
  | .obj fields => !fields.isEmpty

/-- The guard `value is None or value == ""` used by the prompt assembler
and by its nested-dictionary helper. -/
def pyIsNoneOrEmptyStr : JValue → Bool
  | .null => true
  | .str s => s == ""
  | _ => false

/-!
## Embedding of services/storage_service.py

`Agent` keeps its identifier and model name.  The two derived `Path`
fields (`wav_file_path`, `system_prompt_file`) are pure file-system paths
consumed only by the TTS call and the prompt loader, which enter the
embedding as oracles, so they are not modelled.  `model_name` is a
`JValue` because `_load_agents` stores whatever JSON value stands at the
key in the backing file.
-/

structure Agent where
  agent_id : String
  model_name : JValue

/-- Embeds `Agent.to_dict`. -/
def Agent.to_dict (a : Agent) : JValue :=
  .obj [("agent_id", .str a.agent_id), ("model_name", a.model_name)]

/-- The in-memory registry `AgentStorage.agents` (a Python dict, embedded
as its insertion-ordered association list; dict keys are unique). -/
abbrev Registry := List (String × Agent)

/-- State of the JSON backing file as seen by `json.load`: absent,
present but failing to parse, or parsed to a JSON value. -/
inductive FileState where
  | missing
  | malformed
  | content (v : JValue)

/-- Embeds `AgentStorage._load_agents`: a missing file (`FileNotFoundError`) or a
parse failure (`json.JSONDecodeError`) degrades to the empty registry; a
parsed JSON object is turned into `Agent(agent_id, model_name)` entries;
any other parsed value makes `data.items()` raise an uncaught
`AttributeError`. -/
def _load_agents : FileState → Except PyError Registry
  | .missing => .ok []
  | .malformed => .ok []
  | .content (.obj fields) => .ok (fields.map (fun kv => (kv.1, Agent.mk kv.1 kv.2)))
  | .content _ => .error (.raised "AttributeError: object has no attribute 'items'")

/-- Embeds `AgentStorage._save_agents`: the JSON value written to the backing
file, `json.dump(dict of agent_id to agent.to_dict())`. -/
def _save_agents (agents : Registry) : JValue :=
  .obj (agents.map (fun kv => (kv.1, kv.2.to_dict)))

/-- Embeds `AgentStorage.get_agent`, that is `self.agents.get(agent_id, None)`. -/
def get_agent (agents : Registry) (agent_id : String) : Option Agent :=
  agents.lookup agent_id

/-- Python truthiness of the `model_name: str = None` parameter of
`update_agent` (`if model_name:`). -/
def pyTruthyOptStr : Option String → Bool
  | none => false
  | some s => s != ""

/-- Embeds `AgentStorage.update_agent`.  When the id is present and the new name
is truthy, the source performs `self.agents[agent_id]["model_name"] =
model_name` on an `Agent` object, which raises `TypeError` before any
mutation; when the name is falsy it only re-saves (the file write is
modelled as succeeding).  An absent id raises `KeyError`.  The returned
pair is the Python outcome together with the registry afterwards. -/
def update_agent (agents : Registry) (agent_id : String) (model_name : Option String) :
    Except PyError Unit × Registry :=
  if (agents.lookup agent_id).isSome then
    if pyTruthyOptStr model_name then
      (.error (.typeError "'Agent' object does not support item assignment"), agents)
    else
      (.ok (), agents)
  else
    (.error (.keyError ("Agent with agent_id '" ++ agent_id ++ "' does not exist.")), agents)

/-- Embeds `AgentStorage.remove_agent`: delete the key and re-save, or raise
`KeyError` when the id is absent. -/
def remove_agent (agents : Registry) (agent_id : String) :
    Except PyError Unit × Registry :=
  if (agents.lookup agent_id).isSome then
    (.ok (), agents.filter (fun kv => kv.1 != agent_id))
  else
    (.error (.keyError ("Agent with agent_id '" ++ agent_id ++ "' does not exist.")), agents)

/-!
## Embedding of services/llm_service.py

The outcomes of the external calls (`genai` client construction, the two
network requests, and `agent.get_system_prompt()`, which reads a file)
are supplied as oracle fields of `LLMEnv`; `.error e` stands for the call
raising an exception whose rendering is `e`.
-/

/-- A `(role, content)` message: both the request schema's conversation
items and the provider payload entries. -/
structure Msg where
  role : String
  content : String
deriving DecidableEq

def GEMINI_API_MODELS : List String := ["gemini-2.5-flash"]

def HF_SERVERLESS_MODELS : List String :=
  ["deepseek-ai/DeepSeek-R1:sambanova", "zai-org/GLM-4.5"]

structure LLMEnv where
  /-- The module-level `client` (`None` when Gemini initialisation failed). -/
  client : Option Unit
  /-- The token `HF_TOKEN` (`None` when the environment variable is unset). -/
  hfToken : Option String
  /-- Outcome of `agent.get_system_prompt()` (may raise, e.g. `FileNotFoundError`). -/
  sysPrompt : Except String String
  /-- Outcome of `client.models.generate_content(...)` followed by `.text`. -/
  netGemini : Except String String
  /-- Outcome of `requests.post` + `raise_for_status` + response parsing. -/
  netHf : Except String String

/-- Membership test `model_name in LIST`: Python `in` compares the value
with each string of the static list, so a non-string value never matches. -/
def jvalueInStrList (v : JValue) (l : List String) : Bool :=
  match v with
  | .str s => l.contains s
  | _ => false

/-- The `contents` list built in the hosted-API branch: each history item
becomes a `types.Content` with its own role, then the new prompt is
appended as a user turn. -/
def buildGeminiContents (history : List Msg) (user_prompt : String) : List Msg :=
  history.map (fun m => ⟨m.role, m.content⟩) ++ [⟨"user", user_prompt⟩]

/-- The `messages` list built in the inference-router branch: the persona
prompt first as a system message, the history with internal role "model"
mapped to "assistant" (anything else to "user"), then the new prompt as a
final user message. -/
def buildHfMessages (sysPrompt : String) (history : List Msg) (user_prompt : String) :
    List Msg :=
  ⟨"system", sysPrompt⟩ ::
    (history.map (fun m => ⟨if m.role = "model" then "assistant" else "user", m.content⟩) ++
      [⟨"user", user_prompt⟩])

/-- Embeds `_call_gemini_api`: early sentinel when the client is missing; it
fetches the persona prompt (which may raise) and then performs the
network call. -/
def _call_gemini_api (env : LLMEnv) (_contents : List Msg) : Except String String :=
  match env.client with
  | none => .ok "ERROR: Gemini client not initialized."
  | some _ =>
    match env.sysPrompt with
    | .error e => .error e
    | .ok _ => env.netGemini

/-- Embeds `_call_hf_api`: early sentinel when the token is missing, otherwise
the network call. -/
def _call_hf_api (env : LLMEnv) (_messages : List Msg) : Except String String :=
  match env.hfToken with
  | none => .ok "ERROR: HF_API_KEY not set."
  | some _ => env.netHf

/-- The hosted-API branch of `generate_llm_response`: `try: return
_call_gemini_api(...) except Exception as e: return f"ERROR: ..."`. -/
def geminiBranchResult (env : LLMEnv) (contents : List Msg) : Except PyError String :=
  match _call_gemini_api env contents with
  | .ok t => .ok t
  | .error e => .ok ("ERROR: Gemini API error - " ++ e)

/-- The inference-router branch of `generate_llm_response`: the message
list is built outside the `try` (so a raising `get_system_prompt`
propagates), then the call's exceptions are converted to a sentinel. -/
def hfBranchResult (env : LLMEnv) (history : List Msg) (user_prompt : String) :
    Except PyError String :=
  match env.sysPrompt with
  | .error e => .error (.raised e)
  | .ok sp =>
    match _call_hf_api env (buildHfMessages sp history user_prompt) with
    | .ok t => .ok t
    | .error e => .ok ("ERROR: HF Serverless API error - " ++ e)

/-- Embeds `generate_llm_response`. -/
def generate_llm_response (env : LLMEnv) (agent : Option Agent)
    (conversation_history : List Msg) (user_prompt : String) : Except PyError String :=
  match env.client with
  | none => .ok "ERROR: LLM API not available."
  | some _ =>
    match agent with
    | none => .error (.valueError "No agent provided.")
    | some a =>
      match a.model_name with
      | .null => .error (.valueError "Agent model_name is not defined.")
      | mn =>
        if jvalueInStrList mn GEMINI_API_MODELS then
          geminiBranchResult env (buildGeminiContents conversation_history user_prompt)
        else if jvalueInStrList mn HF_SERVERLESS_MODELS then
          hfBranchResult env conversation_history user_prompt
        else
          .ok ("ERROR: Model '" ++ jvalueStr mn ++ "' not configured for API routing.")

/-!
## Embedding of app.py — the POST /next_turn handler (non-dummy path)
-/

/-- The request body of `POST /next_turn`. -/
structure ConversationRequest where
  conversation_history : List Msg
  next_speaker_id : String
  user_prompt : String

/-- The `data` payload of a successful `/next_turn` response. -/
structure AgentMessage where
  speaker_id : String
  text : String
  audio_base64 : String
deriving DecidableEq

/-- How a handler run ends: a 200 success envelope, a raised
`HTTPException`, or an exception escaping the handler. -/
inductive HttpResult (α : Type) where
  | ok (value : α)
  | httpError (status : Nat) (detail : String)
  | unhandled (e : PyError)

structure NextTurnEnv where
  /-- The registry `agent_storage.agents`. -/
  agents : Registry
  llm : LLMEnv
  /-- Outcome of `generate_audio_base64` as a function of the text passed
  to it (the agent and language arguments do not affect the claims). -/
  tts : String → Except String String

/-- The `cleaned_text` computed by `next_turn` and passed to
`generate_audio_base64`: cleaning happens only when the raw LLM text
contains the opening tag. -/
def ttsText (llm_text : String) : String :=
  if pyContains "<think>" llm_text then basic_clean_text llm_text else llm_text

/-- The `next_turn` handler. -/
def next_turn (env : NextTurnEnv) (request : ConversationRequest) :
    HttpResult AgentMessage :=
  let agent := get_agent env.agents request.next_speaker_id
  match generate_llm_response env.llm agent request.conversation_history
      request.user_prompt with
  | .error e => .unhandled e
  | .ok llm_text =>
    if pyStartsWith llm_text "ERROR" then .httpError 500 llm_text
    else
      let cleaned_text := ttsText llm_text
      match env.tts cleaned_text with
      | .error e => .httpError 500 ("TTS Generation failed: " ++ e)
      | .ok audio_base64 => .ok ⟨request.next_speaker_id, llm_text, audio_base64⟩

/-- The handler responded with HTTP status 500. -/
def is500 {α : Type} (r : HttpResult α) : Prop :=
  ∃ detail, r = .httpError 500 detail

/-!
## Embedding of utils.py — the prompt assembler

`get_agent_system_prompt` is embedded over the parsed YAML mapping (its
file access and `yaml.safe_load` are outside the rendering logic the
claims concern).  Python `float` values do not occur in the claims and
are not modelled; `isinstance(value, (int, float, bool))` covers the
`num` and `bool` constructors.
-/

/-- Python `str.title()`: the first cased character of every word is
uppercased, later ones lowercased (alphabetic characters standing in for
Python's cased characters). -/
def pyTitleAux : Bool → List Char → List Char
  | _, [] => []
  | prevAlpha, c :: t =>
    (if c.isAlpha then (if prevAlpha then c.toLower else c.toUpper) else c) ::
      pyTitleAux c.isAlpha t

/-- Python `s.title()`. -/
def pyTitle (s : String) : String := String.mk (pyTitleAux false s.data)

/-- Embeds `key.upper().replace(" ", "_").replace("-", "_")`. -/
def tagName (key : String) : String :=
  (key.toUpper.replace " " "_").replace "-" "_"

/-- Embeds `_format_dict_section(tag_name, data)`: each sub-entry whose value is
neither `None` nor the empty string becomes one content line (strings are
stripped, lists joined with "; " after dropping falsy items, one further
dict level rendered as indented `k: v` lines after dropping falsy
values, any other scalar rendered with `str`); an empty content list
yields the empty string. -/
def _format_dict_section (tag : String) (data : List (String × JValue)) : String :=
  let contentParts := data.filterMap (fun kv =>
    if pyIsNoneOrEmptyStr kv.2 then none
    else
      let displayKey := pyTitle (kv.1.replace "_" " ")
      match kv.2 with
      | .str s => some (displayKey ++ ": " ++ pyStripStr s)
      | .arr items =>
        let its := String.intercalate "; "
          ((items.filter pyTruthy).map (fun it => pyStripStr (jvalueStr it)))
        if its = "" then none else some (displayKey ++ ": " ++ its)
      | .obj nested =>
        let nestedItems := nested.filterMap (fun kv2 =>
          if pyTruthy kv2.2 then some ("  " ++ kv2.1 ++ ": " ++ jvalueStr kv2.2)
          else none)
        if nestedItems = [] then none
        else some (displayKey ++ ":\n" ++ String.intercalate "\n" nestedItems)
      | v => some (displayKey ++ ": " ++ jvalueStr v))
  if contentParts = [] then ""
  else "<" ++ tag ++ ">\n" ++ String.intercalate "\n" contentParts ++ "\n</" ++ tag ++ ">"

/-- Embeds `_format_section(key, value)`. -/
def _format_section (key : String) (value : JValue) : String :=
  let tag := tagName key
  match value with
  | .str s => "<" ++ tag ++ ">\n" ++ pyStripStr s ++ "\n</" ++ tag ++ ">"
  | .arr items =>
    let its := String.intercalate "\n"
      ((items.filter pyTruthy).map (fun it => "- " ++ pyStripStr (jvalueStr it)))
    if its = "" then "" else "<" ++ tag ++ ">\n" ++ its ++ "\n</" ++ tag ++ ">"
  | .obj fields => _format_dict_section tag fields
  | .num n => "<" ++ tag ++ ">\n" ++ jvalueStr (.num n) ++ "\n</" ++ tag ++ ">"
  | .bool b => "<" ++ tag ++ ">\n" ++ jvalueStr (.bool b) ++ "\n</" ++ tag ++ ">"
  | .null => ""

/-- The `prompt_parts` accumulation loop of `get_agent_system_prompt`:
keys whose value is `None` or the empty string are skipped, and formatted
sections that come out empty are not appended. -/
def promptParts (data : List (String × JValue)) : List String :=
  data.filterMap (fun kv =>
    if pyIsNoneOrEmptyStr kv.2 then none
    else
      let formatted := _format_section kv.1 kv.2
      if formatted = "" then none else some formatted)

/-- The fixed boilerplate opening of the assembled prompt. -/
def promptHeader : String :=
  "### SYSTEM INSTRUCTION FILE START ###\n\n" ++
  "Always answer without any markdown formatting and do not include any tables or lists unless explicitly instructed to do so. " ++
  "Since it is a dialogue keep your answers short, concise, and to the point. Your response should not exceed 2 paragraphs in length or 1 minute of speech with normal pace. " ++
  "Always keep in mind that this is a dialogue between two AI models representing personas of specific professors whose persona is specified below. Both professors are arguing/debating on a topic provided by a user, who is a student seeking to understand different perspectives on the topic. " ++
  "You should NEVER break a character provided to you. Always think and response critically and analytically, but all your critique MUST BE based on facts and logical reasoning.\n\n" ++
  "Read and strictly adhere to the following configuration which provides contextual information and constraints for your entire session.\n\n" ++
  "```command_config\n"

/-- The fixed boilerplate closing of the assembled prompt. -/
def promptFooter : String :=
  "\n```\n\n" ++
  "AND ONCE MORE, NO MARKDOWN, NO TABLES, ONLY DIALOGUE STYLE. SHOULD NOT EXCEED 200 CHARS\n" ++
  "### SYSTEM INSTRUCTION FILE END ###"

/-- The fallback prompt when no section survives. -/
def promptFallback : String :=
  "### SYSTEM INSTRUCTION FILE START ###\n\nNo configuration provided.\n\n### SYSTEM INSTRUCTION FILE END ###"

/-- Embeds `get_agent_system_prompt`, over the parsed YAML mapping. -/
def get_agent_system_prompt (data : List (String × JValue)) : String :=
  let parts := promptParts data
  if parts = [] then pyStripStr promptFallback
  else pyStripStr (promptHeader ++ String.intercalate "\n\n" parts ++ promptFooter)

/-- Invariant of cleaned text: every whitespace character is a plain
space. -/
def GoodSpaces (l : List Char) : Prop :=
  ∀ c ∈ l, pyIsSpace c = true → c = ' '

/-- Invariant of cleaned text: no two adjacent whitespace characters. -/
def NoTwoSpaces (l : List Char) : Prop :=
  List.Chain' (fun a b => ¬(pyIsSpace a = true ∧ pyIsSpace b = true)) l

/-!
## Theorems

First a collection of helper lemmas about the text-cleaning pipeline,
then one theorem (plus witness / counterexample where required) per
claim.
-/

theorem removeThinkFuel_of_not_contains (fuel : Nat) :
    ∀ l : List Char, containsList openPat l = false → removeThinkFuel fuel l = l := by
  induction fuel with
  | zero => intro l _; rfl
  | succ f ih =>
    intro l h
    cases l with
    | nil => rfl
    | cons c t =>
      have h1 : openPat.isPrefixOf (c :: t) = false ∧ containsList openPat t = false := by
        simpa [containsList] using h
      simp [removeThinkFuel, h1.1, ih t h1.2]

theorem afterFirst_length (pat : List Char) :
    ∀ l r : List Char, afterFirst pat l = some r → r.length + pat.length ≤ l.length := by
  intro l
  induction l with
  | nil =>
    intro r h
    by_cases hp : pat.isPrefixOf ([] : List Char)
    · have hpre : pat <+: ([] : List Char) := List.isPrefixOf_iff_prefix.mp hp
      have h0 : pat.length ≤ 0 := by simpa using hpre.sublist.length_le
      simp only [afterFirst, hp, if_pos, Option.some.injEq] at h
      subst h
      simp only [List.length_nil]
      omega
    · simp [afterFirst, hp] at h
  | cons c t ih =>
    intro r h
    by_cases hp : pat.isPrefixOf (c :: t)
    · have hpre : pat <+: (c :: t) := List.isPrefixOf_iff_prefix.mp hp
      have hlen : pat.length ≤ (c :: t).length := hpre.sublist.length_le
      simp only [afterFirst, hp, if_pos, Option.some.injEq] at h
      subst h
      simp only [List.length_drop]
      omega
    · simp only [afterFirst, hp] at h
      rw [if_neg (by simp [hp])] at h
      have := ih r h
      simp only [List.length_cons]
      omega

theorem afterFirst_contains (pat : List Char) :
    ∀ l r : List Char, afterFirst pat l = some r → containsList pat l = true := by
  intro l
  induction l with
  | nil =>
    intro r h
    by_cases hp : pat.isPrefixOf ([] : List Char)
    · simp [containsList, hp]
    · simp [afterFirst, hp] at h
  | cons c t ih =>
    intro r h
    by_cases hp : pat.isPrefixOf (c :: t)
    · simp [containsList, hp]
    · rw [afterFirst, if_neg (by simp [hp])] at h
      simp [containsList, ih r h]

theorem removeThinkFuel_length_le (fuel : Nat) :
    ∀ l : List Char, (removeThinkFuel fuel l).length ≤ l.length := by
  induction fuel with
  | zero => intro l; exact le_rfl
  | succ f ih =>
    intro l
    cases l with
    | nil => exact le_rfl
    | cons c t =>
      by_cases hp : openPat.isPrefixOf (c :: t)
      · rcases hres : afterFirst closePat ((c :: t).drop openPat.length) with _ | rest
        · simp only [removeThinkFuel, hp, if_pos, hres, List.length_cons]
          exact Nat.succ_le_succ (ih t)
        · simp only [removeThinkFuel, hp, if_pos, hres]
          have h1 := ih rest
          have h2 := afterFirst_length closePat _ rest hres
          simp only [List.length_drop] at h2
          omega
      · simp only [removeThinkFuel, hp]
        rw [if_neg (by simp [hp])]
        simpa using Nat.succ_le_succ (ih t)

theorem removeThinkFuel_block_length :
    ∀ (fuel : Nat) (l : List Char), l.length ≤ fuel → hasThinkBlock l = true →
      (removeThinkFuel fuel l).length + 15 ≤ l.length := by
  intro fuel
  induction fuel with
  | zero =>
    intro l hl h
    interval_cases hlen : l.length
    · rw [List.length_eq_zero.mp hlen] at h
      exact absurd h (by decide)
  | succ f ih =>
    intro l hl h
    cases l with
    | nil => exact absurd h (by decide)
    | cons c t =>
      by_cases hp : openPat.isPrefixOf (c :: t)
      · have hfirst : afterFirst openPat (c :: t) = some ((c :: t).drop openPat.length) := by
          simp [afterFirst, hp]
        rw [hasThinkBlock, hfirst] at h
        have h' : (afterFirst closePat ((c :: t).drop openPat.length)).isSome = true := h
        rcases hres : afterFirst closePat ((c :: t).drop openPat.length) with _ | rest
        · rw [hres] at h'; simp at h' 
        · simp only [removeThinkFuel, hp, if_pos, hres]
          have h1 := removeThinkFuel_length_le f rest
          have h2 := afterFirst_length closePat _ rest hres
          have h3 : openPat.length ≤ (c :: t).length :=
            (List.isPrefixOf_iff_prefix.mp hp).sublist.length_le
          have h5 : openPat.length = 7 := by decide
          have h6 : closePat.length = 8 := by decide
          simp only [List.length_drop] at h2
          omega
      · have hstep : afterFirst openPat (c :: t) = afterFirst openPat t := by
          rw [afterFirst, if_neg (by simp [hp])]
        have ht : hasThinkBlock t = true := by
          rw [hasThinkBlock, hstep] at h; exact h
        have hlt : t.length ≤ f := by
          simp only [List.length_cons] at hl; omega
        simp only [removeThinkFuel, hp]
        rw [if_neg (by simp [hp])]
        have := ih t hlt ht
        simp only [List.length_cons]
        omega

theorem removeThink_block_length (l : List Char) (h : hasThinkBlock l = true) :
    (removeThink l).length + 15 ≤ l.length :=
  removeThinkFuel_block_length l.length l le_rfl h

theorem collapseWs_length_le : ∀ l : List Char, (collapseWs l).length ≤ l.length := by
  intro l
  induction l with
  | nil => exact le_rfl
  | cons c t ih =>
    cases t with
    | nil => simp [collapseWs]
    | cons d t' =>
      by_cases hb : pyIsSpace c && pyIsSpace d
      · simp only [collapseWs, hb, if_pos, List.length_cons]
        simp only [List.length_cons] at ih
        omega
      · simp only [collapseWs, hb]
        rw [if_neg (by simp_all)]
        simp only [List.length_cons]
        simp only [List.length_cons] at ih
        omega

theorem goodSpaces_collapseWs : ∀ l : List Char, GoodSpaces (collapseWs l) := by
  intro l
  induction l with
  | nil => intro c hc; simp [collapseWs] at hc
  | cons c t ih =>
    cases t with
    | nil =>
      intro x hx hsp
      simp only [collapseWs, List.mem_singleton] at hx
      subst hx
      by_cases hc : pyIsSpace c = true
      · simp [hc]
      · simp only [hc, if_neg, Bool.false_eq_true] at hsp ⊢
        simp at hc
        rw [if_neg (by simp [hc])] at hsp
        exact absurd hsp (by simp [hc])
    | cons d t' =>
      by_cases hb : pyIsSpace c && pyIsSpace d
      · simpa only [collapseWs, hb, if_pos] using ih
      · intro x hx hsp
        simp only [collapseWs, hb] at hx
        rw [if_neg (by simp_all)] at hx
        rcases List.mem_cons.mp hx with hx | hx
        · subst hx
          by_cases hc : pyIsSpace c = true
          · simp [hc]
          · rw [if_neg (by simp_all)] at hsp
            exact absurd hsp (by simp_all)
        · exact ih x hx hsp

theorem collapseWs_head? :
    ∀ (t : List Char) (d : Char),
      (collapseWs (d :: t)).head? = some (if pyIsSpace d then ' ' else d) := by
  intro t
  induction t with
  | nil => intro d; rfl
  | cons d' t' ih =>
    intro d
    by_cases hb : pyIsSpace d && pyIsSpace d'
    · have hd : pyIsSpace d = true := by simp_all
      have hd' : pyIsSpace d' = true := by simp_all
      simp only [collapseWs, hb, if_pos]
      rw [ih d']
      simp [hd, hd']
    · simp only [collapseWs, hb]
      rw [if_neg (by simp_all)]
      simp

theorem noTwoSpaces_collapseWs : ∀ l : List Char, NoTwoSpaces (collapseWs l) := by
  intro l
  induction l with
  | nil => simp [NoTwoSpaces, collapseWs]
  | cons c t ih =>
    cases t with
    | nil => simp [NoTwoSpaces, collapseWs]
    | cons d t' =>
      by_cases hb : pyIsSpace c && pyIsSpace d
      · simpa only [collapseWs, hb, if_pos] using ih
      · unfold NoTwoSpaces at ih ⊢
        simp only [collapseWs, hb]
        rw [if_neg (by simp_all)]
        refine List.chain'_cons'.mpr ⟨fun y hy => ?_, ih⟩
        rw [collapseWs_head? t' d] at hy
        simp only [Option.mem_def, Option.some.injEq] at hy
        subst hy
        by_cases hc : pyIsSpace c = true
        · have hd : pyIsSpace d = false := by
            cases hd : pyIsSpace d
            · rfl
            · exact absurd (by simp [hc, hd]) hb
          simp [hc, hd]
        · simp only [Bool.not_eq_true] at hc
          rw [if_neg (by simp [hc])]
          simp [hc]

theorem collapseWs_eq_self :
    ∀ l : List Char, GoodSpaces l → NoTwoSpaces l → collapseWs l = l := by
  intro l
  induction l with
  | nil => intro _ _; rfl
  | cons c t ih =>
    cases t with
    | nil =>
      intro hg _
      by_cases hc : pyIsSpace c = true
      · have : c = ' ' := hg c (by simp) hc
        simp [collapseWs, hc, this]
      · simp only [collapseWs]
        rw [if_neg (by simp_all)]
    | cons d t' =>
      intro hg hnd
      have hpair := (List.chain'_cons'.mp hnd).1 d (by simp)
      have htail : NoTwoSpaces (d :: t') := (List.chain'_cons'.mp hnd).2
      have hb : (pyIsSpace c && pyIsSpace d) = false := by
        cases h1 : pyIsSpace c <;> cases h2 : pyIsSpace d <;> simp_all
      have hgtail : GoodSpaces (d :: t') := fun x hx hsp => hg x (by simp [hx]) hsp
      have hhead : (if pyIsSpace c then ' ' else c) = c := by
        by_cases hc : pyIsSpace c = true
        · rw [if_pos hc, hg c (by simp) hc]
        · rw [if_neg (by simp_all)]
      simp only [collapseWs, hb]
      rw [if_neg (by simp)]
      rw [hhead, ih hgtail htail]

theorem stripWs_infix_self (l : List Char) : stripWs l <:+: l := by
  have h1 := List.rdropWhile_prefix pyIsSpace (l.dropWhile pyIsSpace)
  have h2 : l.dropWhile pyIsSpace <:+ l := List.dropWhile_suffix pyIsSpace
  exact h1.isInfix.trans h2.isInfix

theorem stripWs_length_le (l : List Char) : (stripWs l).length ≤ l.length :=
  (stripWs_infix_self l).sublist.length_le

theorem stripWs_idem (l : List Char) : stripWs (stripWs l) = stripWs l := by
  unfold stripWs
  have h1 : ((l.dropWhile pyIsSpace).rdropWhile pyIsSpace).dropWhile pyIsSpace =
      (l.dropWhile pyIsSpace).rdropWhile pyIsSpace := by
    rw [List.dropWhile_eq_self_iff]
    intro hl
    have hpre : (l.dropWhile pyIsSpace).rdropWhile pyIsSpace <+: l.dropWhile pyIsSpace :=
      List.rdropWhile_prefix pyIsSpace (l.dropWhile pyIsSpace)
    have hl' : 0 < (l.dropWhile pyIsSpace).length :=
      lt_of_lt_of_le hl hpre.sublist.length_le
    have hget := List.dropWhile_get_zero_not pyIsSpace l hl'
    have heq : ((l.dropWhile pyIsSpace).rdropWhile pyIsSpace).get ⟨0, hl⟩ =
        (l.dropWhile pyIsSpace).get ⟨0, hl'⟩ := by
      simpa [List.get_eq_getElem] using hpre.getElem (by simpa using hl)
    rw [heq]
    exact hget
  rw [h1, List.rdropWhile_idempotent]

theorem removesuffixThank_prefix_self (l : List Char) : removesuffixThank l <+: l := by
  unfold removesuffixThank
  by_cases h : thankPhrase.isSuffixOf l
  · rw [if_pos h]; exact List.take_prefix _ _
  · rw [if_neg h]

theorem goodSpaces_mono {l₁ l₂ : List Char} (h : l₁ <:+: l₂)
    (hg : GoodSpaces l₂) : GoodSpaces l₁ :=
  fun c hc => hg c (h.subset hc)

theorem noTwoSpaces_mono {l₁ l₂ : List Char} (h : l₁ <:+: l₂)
    (hn : NoTwoSpaces l₂) : NoTwoSpaces l₁ :=
  hn.infix h

theorem pyStartsWith_append (pre rest : String) :
    pyStartsWith (pre ++ rest) pre = true := by
  unfold pyStartsWith
  rw [List.isPrefixOf_iff_prefix, String.data_append]
  exact List.prefix_append _ _

theorem pyStartsWith_error_append (mid e : String) :
    pyStartsWith ("ERROR" ++ mid ++ e) "ERROR" = true := by
  rw [String.append_assoc]
  exact pyStartsWith_append "ERROR" (mid ++ e)

theorem basic_clean_text_data (s : String) :
    (basic_clean_text s).data =
      stripWs (removesuffixThank (stripWs (collapseWs (removeThink s.data)))) :=
  rfl

theorem basic_clean_text_shrinks (s : String) (h : hasThinkBlock s.data = true) :
    (basic_clean_text s).data.length < s.data.length := by
  have h1 := removeThink_block_length s.data h
  have h2 := collapseWs_length_le (removeThink s.data)
  have h3 := stripWs_length_le (collapseWs (removeThink s.data))
  have h4 : (removesuffixThank (stripWs (collapseWs (removeThink s.data)))).length ≤
      (stripWs (collapseWs (removeThink s.data))).length :=
    (removesuffixThank_prefix_self _).sublist.length_le
  have h5 := stripWs_length_le (removesuffixThank (stripWs (collapseWs (removeThink s.data))))
  rw [basic_clean_text_data]
  omega

/-- C6: registry load failure degrades rather than aborts: a missing
backing file and a backing file that fails to parse both make
`_load_agents` return the empty registry instead of raising. -/
theorem load_agents_failure_degrades :
    _load_agents .missing = .ok ([] : Registry) ∧
    _load_agents .malformed = .ok ([] : Registry) :=
  ⟨rfl, rfl⟩

/-- C1, evaluated at the failing input: saving the one-entry registry
that maps "A" to the model name "gemini-2.5-flash" and reloading the
written value yields an entry whose `model_name` is the whole record
object, not the original string — `_save_agents` writes `to_dict`
records while `_load_agents` expects bare model names, so the round-trip
claim fails on the code. -/
theorem save_then_load_changes_model_name :
    _load_agents (.content (_save_agents [("A", Agent.mk "A" (.str "gemini-2.5-flash"))])) =
      .ok [("A", Agent.mk "A"
        (.obj [("agent_id", .str "A"), ("model_name", .str "gemini-2.5-flash")]))] ∧
    JValue.obj [("agent_id", .str "A"), ("model_name", .str "gemini-2.5-flash")] ≠
      .str "gemini-2.5-flash" :=
  ⟨rfl, fun h => JValue.noConfusion h⟩

/-- C2, evaluated at the failing input: with agent "A" present in the
registry, updating it with the non-empty model name "zai-org/GLM-4.5"
raises `TypeError` (item assignment on an `Agent` object) and leaves the
registry unchanged, instead of succeeding with the new model name. -/
theorem update_agent_present_id_raises :
    update_agent [("A", Agent.mk "A" (.str "gemini-2.5-flash"))] "A" (some "zai-org/GLM-4.5") =
      (.error (.typeError "'Agent' object does not support item assignment"),
        [("A", Agent.mk "A" (.str "gemini-2.5-flash"))]) :=
  rfl

/-- C5: for every agent id absent from the registry, `get_agent` returns
the missing value, and `update_agent` and `remove_agent` raise `KeyError`
while leaving the registry unchanged. -/
theorem absent_id_reports_not_found (agents : Registry) (agent_id : String)
    (model_name : Option String) (h : agents.lookup agent_id = none) :
    get_agent agents agent_id = none ∧
    update_agent agents agent_id model_name =
      (.error (.keyError ("Agent with agent_id '" ++ agent_id ++ "' does not exist.")),
        agents) ∧
    remove_agent agents agent_id =
      (.error (.keyError ("Agent with agent_id '" ++ agent_id ++ "' does not exist.")),
        agents) := by
  refine ⟨?_, ?_, ?_⟩ <;> simp [get_agent, update_agent, remove_agent, h]

/-- Witness for C5 at the empty registry and the id "GHOST". -/
theorem absent_id_reports_not_found_witness :
    get_agent ([] : Registry) "GHOST" = none ∧
    update_agent ([] : Registry) "GHOST" (some "gemini-2.5-flash") =
      (.error (.keyError "Agent with agent_id 'GHOST' does not exist."), ([] : Registry)) ∧
    remove_agent ([] : Registry) "GHOST" =
      (.error (.keyError "Agent with agent_id 'GHOST' does not exist."), ([] : Registry)) :=
  absent_id_reports_not_found [] "GHOST" (some "gemini-2.5-flash") rfl

/-- C4: model-name routing in `generate_llm_response` is total: with the
client initialised, a model name on the Gemini list resolves to the
hosted-API branch, a model name on the HF serverless list resolves to the
inference-router branch, and any other model name returns the
"not configured" error string rather than raising. -/
theorem generate_llm_response_routing_total
    (env : LLMEnv) (a : Agent) (history : List Msg) (user_prompt n : String)
    (hc : env.client = some ()) (hm : a.model_name = .str n) :
    (n ∈ GEMINI_API_MODELS →
      generate_llm_response env (some a) history user_prompt =
        geminiBranchResult env (buildGeminiContents history user_prompt)) ∧
    (n ∈ HF_SERVERLESS_MODELS →
      generate_llm_response env (some a) history user_prompt =
        hfBranchResult env history user_prompt) ∧
    (n ∉ GEMINI_API_MODELS → n ∉ HF_SERVERLESS_MODELS →
      generate_llm_response env (some a) history user_prompt =
        .ok ("ERROR: Model '" ++ n ++ "' not configured for API routing.")) := by
  refine ⟨fun hg => ?_, fun hh => ?_, fun hng hnh => ?_⟩
  · have hg1 : jvalueInStrList (.str n) GEMINI_API_MODELS = true := List.elem_iff.mpr hg
    simp [generate_llm_response, hc, hm, jvalueInStrList] at hg1 ⊢
    simp [hg1]
  · have hh1 : jvalueInStrList (.str n) HF_SERVERLESS_MODELS = true := List.elem_iff.mpr hh
    have hg0 : jvalueInStrList (.str n) GEMINI_API_MODELS = false := by
      rw [Bool.eq_false_iff]
      intro hcontra
      rcases List.elem_iff.mp hcontra with h1
      rcases List.mem_singleton.mp h1 with rfl
      exact absurd (List.elem_iff.mp hh1) (by decide)
    simp [generate_llm_response, hc, hm, jvalueInStrList] at hg0 hh1 ⊢
    simp [hg0, hh1]
  · have hg0 : jvalueInStrList (.str n) GEMINI_API_MODELS = false := by
      rw [Bool.eq_false_iff]
      exact fun hcontra => hng (List.elem_iff.mp hcontra)
    have hh0 : jvalueInStrList (.str n) HF_SERVERLESS_MODELS = false := by
      rw [Bool.eq_false_iff]
      exact fun hcontra => hnh (List.elem_iff.mp hcontra)
    simp [generate_llm_response, hc, hm, jvalueInStrList, jvalueStr] at hg0 hh0 ⊢
    simp [hg0, hh0]

/-- Witness for C4 at a concrete environment: a model name on neither
list yields the "not configured" sentinel. -/
theorem generate_llm_response_routing_total_witness :
    generate_llm_response
        ⟨some (), some "tok", .ok "SP", .ok "hi", .ok "hi"⟩
        (some (Agent.mk "A" (.str "gpt-4"))) [] "go" =
      .ok "ERROR: Model 'gpt-4' not configured for API routing." :=
  (generate_llm_response_routing_total
      ⟨some (), some "tok", .ok "SP", .ok "hi", .ok "hi"⟩
      (Agent.mk "A" (.str "gpt-4")) [] "go" "gpt-4" rfl rfl).2.2
    (by decide) (by decide)

/-- C7: the message list built in the inference-router branch starts with
the persona prompt as a system message, continues with the history in
order (internal role "model" mapped to "assistant", anything else to
"user"), and ends with the new user prompt as a user message. -/
theorem buildHfMessages_shape (sysPrompt : String) (history : List Msg)
    (user_prompt : String) :
    (buildHfMessages sysPrompt history user_prompt).length = history.length + 2 ∧
    (buildHfMessages sysPrompt history user_prompt).get? 0 = some ⟨"system", sysPrompt⟩ ∧
    (∀ i m, history.get? i = some m →
      (buildHfMessages sysPrompt history user_prompt).get? (i + 1) =
        some ⟨if m.role = "model" then "assistant" else "user", m.content⟩) ∧
    (buildHfMessages sysPrompt history user_prompt).get? (history.length + 1) =
      some ⟨"user", user_prompt⟩ := by
  refine ⟨by simp [buildHfMessages], rfl, fun i m hm => ?_, ?_⟩
  · have hi : i < history.length := List.get?_eq_some.mp hm |>.1
    have hm' : history[i]? = some m := by simpa [← List.get?_eq_getElem?] using hm
    simp only [buildHfMessages, List.get?_eq_getElem?, List.getElem?_cons_succ]
    rw [List.getElem?_append_left (by simpa using hi)]
    simp [hm']
  · simp [buildHfMessages]

/-- Witness for C7 on a one-element history whose internal role is
"model". -/
theorem buildHfMessages_shape_witness :
    (buildHfMessages "SP" [⟨"model", "earlier"⟩] "ask").length = 3 ∧
    (buildHfMessages "SP" [⟨"model", "earlier"⟩] "ask").get? 1 =
      some ⟨"assistant", "earlier"⟩ := by
  have h := buildHfMessages_shape "SP" [⟨"model", "earlier"⟩] "ask"
  exact ⟨h.1, by simpa using h.2.2.1 0 ⟨"model", "earlier"⟩ rfl⟩

/-- C3 counterexample: `basic_clean_text` is not idempotent.  The suffix
"Thank you for reading." is removed only once per call, so a text ending
in the phrase twice cleans to a text that still ends in it; and removing
a think block can splice the surrounding text into a new complete think
block, which only a second pass removes. -/
theorem basic_clean_text_not_idempotent :
    basic_clean_text
        (basic_clean_text "x Thank you for reading.Thank you for reading.") ≠
      basic_clean_text "x Thank you for reading.Thank you for reading." ∧
    basic_clean_text (basic_clean_text "<thi<think>X</think>nk>hello</think>") ≠
      basic_clean_text "<thi<think>X</think>nk>hello</think>" := by
  constructor <;> decide

/-- C3 (amended): `basic_clean_text` is idempotent on every input whose
cleaned output neither contains the substring "<think>" nor ends with
"Thank you for reading."; and the fixed example holds: a thinking block
delimited by the fixed tags is removed entirely,
`basic_clean_text "<think>internal</think> Hello" = "Hello"`. -/
theorem basic_clean_text_conditionally_idempotent :
    (∀ s : String,
      containsList openPat (basic_clean_text s).data = false →
      thankPhrase.isSuffixOf (basic_clean_text s).data = false →
      basic_clean_text (basic_clean_text s) = basic_clean_text s) ∧
    basic_clean_text "<think>internal</think> Hello" = "Hello" := by
  refine ⟨fun s h1 h2 => ?_, by decide⟩
  have hinf : (basic_clean_text s).data <:+: collapseWs (removeThink s.data) := by
    rw [basic_clean_text_data]
    exact (stripWs_infix_self _).trans
      ((removesuffixThank_prefix_self _).isInfix.trans (stripWs_infix_self _))
  have hg : GoodSpaces (basic_clean_text s).data :=
    goodSpaces_mono hinf (goodSpaces_collapseWs _)
  have hnd : NoTwoSpaces (basic_clean_text s).data :=
    noTwoSpaces_mono hinf (noTwoSpaces_collapseWs _)
  have s1 : removeThink (basic_clean_text s).data = (basic_clean_text s).data :=
    removeThinkFuel_of_not_contains _ _ h1
  have s2 : collapseWs (basic_clean_text s).data = (basic_clean_text s).data :=
    collapseWs_eq_self _ hg hnd
  have s3 : stripWs (basic_clean_text s).data = (basic_clean_text s).data := by
    rw [basic_clean_text_data, stripWs_idem]
  have s4 : removesuffixThank (basic_clean_text s).data = (basic_clean_text s).data := by
    unfold removesuffixThank
    rw [if_neg (by simp [h2])]
  show String.mk
      (stripWs (removesuffixThank (stripWs (collapseWs
        (removeThink (basic_clean_text s).data))))) = basic_clean_text s
  rw [s1, s2, s3, s4, s3]

/-- Witness for C3 (amended) at the input "Hello world". -/
theorem basic_clean_text_conditionally_idempotent_witness :
    basic_clean_text (basic_clean_text "Hello world") = basic_clean_text "Hello world" :=
  basic_clean_text_conditionally_idempotent.1 "Hello world" (by decide) (by decide)

/-- C9: dispatcher network failures are surfaced as sentinel strings, not
exceptions — in both provider branches a failing network call yields an
"ERROR"-prefixed string result rather than an exception (in the
inference-router branch, provided building the message list itself did
not raise) — and, whenever the dispatcher returned text and the speech
synthesis succeeds, `next_turn` responds 500 exactly when that text
starts with "ERROR". -/
theorem dispatcher_errors_are_sentinels :
    (∀ (env : LLMEnv) (contents : List Msg) (e : String), env.netGemini = .error e →
      ∃ t, geminiBranchResult env contents = .ok t ∧ pyStartsWith t "ERROR" = true) ∧
    (∀ (env : LLMEnv) (history : List Msg) (user_prompt sp e : String),
      env.netHf = .error e → env.sysPrompt = .ok sp →
      ∃ t, hfBranchResult env history user_prompt = .ok t ∧
        pyStartsWith t "ERROR" = true) ∧
    (∀ (env : NextTurnEnv) (request : ConversationRequest) (text audio : String),
      generate_llm_response env.llm (get_agent env.agents request.next_speaker_id)
        request.conversation_history request.user_prompt = .ok text →
      env.tts (ttsText text) = .ok audio →
      (is500 (next_turn env request) ↔ pyStartsWith text "ERROR" = true)) := by
  refine ⟨fun env contents e hnet => ?_, fun env history user_prompt sp e hnet hsp => ?_,
    fun env request text audio hllm htts => ?_⟩
  · unfold geminiBranchResult _call_gemini_api
    rcases hc : env.client with _ | u
    · exact ⟨_, rfl, by decide⟩
    · rcases hs : env.sysPrompt with es | s
      · exact ⟨_, rfl, pyStartsWith_error_append ": Gemini API error - " es⟩
      · rw [hnet]
        exact ⟨_, rfl, pyStartsWith_error_append ": Gemini API error - " e⟩
  · unfold hfBranchResult _call_hf_api
    rw [hsp]
    rcases ht : env.hfToken with _ | tok
    · exact ⟨_, rfl, by decide⟩
    · rw [hnet]
      exact ⟨_, rfl, pyStartsWith_error_append ": HF Serverless API error - " e⟩
  · unfold next_turn
    dsimp only
    rw [hllm]
    cases hstart : pyStartsWith text "ERROR"
    · simp only [hstart, Bool.false_eq_true, if_false, htts]
      simp [is500]
    · simp only [hstart, if_true]
      simp [is500]

/-- Witness for C9: a failing Gemini network call at a concrete
environment yields an "ERROR"-prefixed result. -/
theorem dispatcher_errors_are_sentinels_witness :
    ∃ t, geminiBranchResult ⟨some (), some "tok", .ok "SP", .error "boom", .ok "x"⟩ [] =
        .ok t ∧ pyStartsWith t "ERROR" = true :=
  dispatcher_errors_are_sentinels.1
    ⟨some (), some "tok", .ok "SP", .error "boom", .ok "x"⟩ [] "boom" rfl

/-- C10 counterexample: an LLM response containing "<think>" whose
cleaning is a no-op (the tag is never closed), so the string handed to
the speech synthesiser equals the response text even though the text
contains "<think>". -/
theorem next_turn_think_text_counterexample :
    pyContains "<think>" "<think> let me reason" = true ∧
    ttsText "<think> let me reason" = "<think> let me reason" ∧
    next_turn
        ⟨[("A", Agent.mk "A" (.str "gemini-2.5-flash"))],
          ⟨some (), some "tok", .ok "SP", .ok "<think> let me reason", .ok "x"⟩,
          fun _ => .ok "AUDIO"⟩
        ⟨[], "A", "go"⟩ =
      .ok ⟨"A", "<think> let me reason", "AUDIO"⟩ :=
  ⟨by decide, by decide, rfl⟩

/-- C10 (amended): on a successful `POST /next_turn` the response text is
the raw LLM output, while the audio is synthesised from the cleaned
text; whenever the LLM output contains a complete `<think>…</think>`
block, the string passed to `generate_audio_base64` differs from the
response text. -/
theorem next_turn_text_raw_audio_cleaned
    (env : NextTurnEnv) (request : ConversationRequest) (text audio : String)
    (hllm : generate_llm_response env.llm (get_agent env.agents request.next_speaker_id)
      request.conversation_history request.user_prompt = .ok text)
    (herr : pyStartsWith text "ERROR" = false)
    (htts : env.tts (ttsText text) = .ok audio) :
    next_turn env request = .ok ⟨request.next_speaker_id, text, audio⟩ ∧
    (hasThinkBlock text.data = true → ttsText text ≠ text) := by
  constructor
  · unfold next_turn
    dsimp only
    rw [hllm]
    simp only [herr, Bool.false_eq_true, if_false, htts]
  · intro hblock
    have hcontains : pyContains "<think>" text = true := by
      unfold hasThinkBlock at hblock
      rcases hfirst : afterFirst openPat text.data with _ | rest
      · rw [hfirst] at hblock; simp at hblock
      · exact afterFirst_contains openPat text.data rest hfirst
    have hlen := basic_clean_text_shrinks text hblock
    unfold ttsText
    rw [if_pos hcontains]
    intro heq
    rw [heq] at hlen
    exact lt_irrefl _ hlen

/-- C8: the prompt assembler is deterministic — equal parsed descriptors
render equal instruction strings — and skips empty fields: a top-level
key, a sub-key of a dictionary section, or a key of a further nested
dictionary whose value is absent (`None`) or the empty string contributes
nothing to the output. -/
theorem get_agent_system_prompt_deterministic_skips_empty :
    (∀ d₁ d₂ : List (String × JValue), d₁ = d₂ →
      get_agent_system_prompt d₁ = get_agent_system_prompt d₂) ∧
    (∀ (pre post : List (String × JValue)) (k : String) (v : JValue),
      (v = .null ∨ v = .str "") →
      get_agent_system_prompt (pre ++ (k, v) :: post) =
        get_agent_system_prompt (pre ++ post)) ∧
    (∀ (tag : String) (pre post : List (String × JValue)) (k : String) (v : JValue),
      (v = .null ∨ v = .str "") →
      _format_dict_section tag (pre ++ (k, v) :: post) =
        _format_dict_section tag (pre ++ post)) ∧
    (∀ (tag : String) (pre post dpre dpost : List (String × JValue))
      (k k2 : String) (v : JValue),
      (v = .null ∨ v = .str "") →
      _format_dict_section tag (pre ++ (k, .obj (dpre ++ (k2, v) :: dpost)) :: post) =
        _format_dict_section tag (pre ++ (k, .obj (dpre ++ dpost)) :: post)) := by
  refine ⟨fun d₁ d₂ h => by rw [h], fun pre post k v hv => ?_,
    fun tag pre post k v hv => ?_, fun tag pre post dpre dpost k k2 v hv => ?_⟩
  · have hnone : pyIsNoneOrEmptyStr v = true := by
      rcases hv with rfl | rfl <;> rfl
    simp only [get_agent_system_prompt, promptParts, List.filterMap_append,
      List.filterMap_cons, hnone, if_true]
  · have hnone : pyIsNoneOrEmptyStr v = true := by
      rcases hv with rfl | rfl <;> rfl
    simp only [_format_dict_section, List.filterMap_append, List.filterMap_cons,
      hnone, if_true]
  · have hfalse : pyTruthy v = false := by
      rcases hv with rfl | rfl <;> rfl
    have hnested :
        (dpre ++ (k2, v) :: dpost).filterMap (fun kv2 =>
          if pyTruthy kv2.2 then some ("  " ++ kv2.1 ++ ": " ++ jvalueStr kv2.2)
          else none) =
        (dpre ++ dpost).filterMap (fun kv2 =>
          if pyTruthy kv2.2 then some ("  " ++ kv2.1 ++ ": " ++ jvalueStr kv2.2)
          else none) := by
      simp only [List.filterMap_append, List.filterMap_cons, hfalse,
        Bool.false_eq_true, if_false]
    simp only [_format_dict_section, List.filterMap_append, List.filterMap_cons,
      pyIsNoneOrEmptyStr, hnested]

/-- Witness for C8: dropping a null-valued top-level key from a concrete
descriptor leaves the rendered prompt unchanged. -/
theorem get_agent_system_prompt_skips_empty_witness :
    get_agent_system_prompt [("persona", .str "P"), ("notes", .null)] =
      get_agent_system_prompt [("persona", .str "P")] :=
  get_agent_system_prompt_deterministic_skips_empty.2.1
    [("persona", .str "P")] [] "notes" .null (Or.inl rfl)

/-- Witness for C10 (amended) at a concrete environment whose LLM output
contains a complete think block. -/
theorem next_turn_text_raw_audio_cleaned_witness :
    next_turn
        ⟨[("A", Agent.mk "A" (.str "gemini-2.5-flash"))],
          ⟨some (), some "tok", .ok "SP", .ok "<think>x</think> Hi", .ok "x"⟩,
          fun _ => .ok "AUDIO"⟩
        ⟨[], "A", "go"⟩ =
      .ok ⟨"A", "<think>x</think> Hi", "AUDIO"⟩ ∧
    ttsText "<think>x</think> Hi" ≠ "<think>x</think> Hi" := by
  have h := next_turn_text_raw_audio_cleaned
    ⟨[("A", Agent.mk "A" (.str "gemini-2.5-flash"))],
      ⟨some (), some "tok", .ok "SP", .ok "<think>x</think> Hi", .ok "x"⟩,
      fun _ => .ok "AUDIO"⟩
    ⟨[], "A", "go"⟩ "<think>x</think> Hi" "AUDIO" rfl (by decide) rfl
  exact ⟨h.1, h.2 (by decide)⟩

end MultiAgent
